import Mathlib

set_option maxHeartbeats 1000000
set_option linter.unnecessarySeqFocus false

/-!
Shallow embedding of mediacloud/sitemap-tools: the crawl scheduler of
`src/mc_sitemap_tools/crawl.py` (classes `BaseCrawler`, `GNewsCrawlerFull`,
`GNewsCrawler`) together with the well-known path tables of
`src/mc_sitemap_tools/discover.py`.

Modelling conventions:
- Python floats become exact rationals (`Rat`); every numeric constant in the
  source is a small decimal and no comparison proved here is sensitive to
  binary rounding.
- Python ints become `Int` (counters that are only incremented become `Nat`).
- External collaborators are not part of the repository and are modelled by
  their contracts: the network calls `NewsDiscoverer.robots_sitemaps` /
  `NewsDiscoverer.sitemap_get` become oracle inputs of each `visit_one` step,
  the URL canonicalizer `mcmetadata.feeds.normalize_url` becomes a function
  parameter `n`, and the Python stdlib `heapq` module is modelled by its
  documented min-priority-queue contract (the frontier list is kept sorted by
  the `PageTuple` order; `heappush` is ordered insertion, `heappop` removes
  the least element; over `PageTuple` values, which carry their entire
  comparison key, this has the same observable value behaviour as the binary
  heap).  The stdlib `urllib.parse.urlsplit` and the `re` patterns of
  `SKIP_RE` are transliterated below.
- Exceptions become an `Except` result: `CrawlerException`, the uncaught
  `IndexError` of `heappop` on an empty list, and failed `assert` statements
  are distinguished constructors; the `FETCH_EXCEPTIONS` that `visit_one`
  catches are oracle outcomes, not errors of the model.
-/

/-- PageTuple of crawl.py: the heap entry `(pref, depth, url, origin)`.
Python compares `NamedTuple`s lexicographically in field-declaration order,
so `pref` (ascending) dominates, then `depth`, then `url`, then `origin`. -/
structure PageTuple where
  pref : Rat
  depth : Int
  url : String
  origin : String
deriving DecidableEq

/-- Python's `<` on strings: lexicographic comparison of the code-point
sequences. -/
def strLtb : List Char → List Char → Bool
  | [], [] => false
  | [], _ :: _ => true
  | _ :: _, [] => false
  | a :: as, b :: bs =>
      if a < b then true
      else if b < a then false
      else strLtb as bs

/-- Boolean rendering of Python's lexicographic tuple comparison `a <= b`
on `PageTuple` (the url/origin strings compare by code point, as in
Python). -/
def ptLeb (a b : PageTuple) : Bool :=
  if a.pref < b.pref then true
  else if b.pref < a.pref then false
  else if a.depth < b.depth then true
  else if b.depth < a.depth then false
  else if strLtb a.url.data b.url.data then true
  else if strLtb b.url.data a.url.data then false
  else if strLtb a.origin.data b.origin.data then true
  else if strLtb b.origin.data a.origin.data then false
  else true

/-- The heap order on `PageTuple` entries. -/
def PageTuple.le (a b : PageTuple) : Prop := ptLeb a b = true

instance : DecidableRel PageTuple.le :=
  fun a b => decidable_of_iff (ptLeb a b = true) Iff.rfl

/-- Model of `heapq.heappush` by its contract: insert keeping the frontier
list sorted by the `PageTuple` order. -/
def heappush (heap : List PageTuple) (item : PageTuple) : List PageTuple :=
  List.orderedInsert PageTuple.le item heap

/-- Model of `heapq.heappop` by its contract: remove and return the least
entry; popping an empty heap is an `IndexError` (`none` here, turned into
the error by the caller). -/
def heappop (heap : List PageTuple) : Option (PageTuple × List PageTuple) :=
  match heap with
  | [] => none
  | p :: rest => some (p, rest)

/-- VisitResult enum of crawl.py. -/
inductive VisitResult where
  | DONE
  | MORE
  | FIN
deriving DecidableEq

/-- Errors visit_one can raise: `CrawlerException` (crawl.py's own class),
the `IndexError` that `heapq.heappop` raises on an empty list, and a failed
`assert`. -/
inductive CrawlError where
  | crawlerException (msg : String)
  | indexError
  | assertionError
deriving DecidableEq

/-- Modelled from the spec: `parser.Urlset` (parser.py is not under src/).
Only the fields crawl.py reads: `url` and `google_news_tags`, the latter
used solely through its truthiness (non-emptiness) in
`GNewsCrawlerFull.save`. -/
structure Urlset where
  url : String
  google_news_tags : List String
deriving DecidableEq

/-- A parsed sitemap document as crawl.py consumes it: the `type` field
dispatch of `visit_one` (`"index"` with `sub_sitemap_urls`, `"urlset"`,
anything else). -/
inductive Sitemap where
  | index (sub_sitemap_urls : List String)
  | urlset (us : Urlset)
  | other (smtype : String)
deriving DecidableEq

/-- Oracle outcome of the `news_discoverer.sitemap_get` call inside
`visit_one`: a raised fetch exception (caught), a `None`/falsy return, or a
parsed sitemap. -/
inductive FetchRes where
  | exc
  | ret (sm : Option Sitemap)
deriving DecidableEq

/-- Oracle inputs of one `visit_one` step: the outcome of
`news_discoverer.robots_sitemaps` (`none` = raised fetch exception, caught)
and of `news_discoverer.sitemap_get`.  Only the one matching the branch
taken is consulted. -/
structure VisitInput where
  robots : Option (List String)
  fetch : FetchRes
deriving DecidableEq

/-- Mutable state of a `BaseCrawler` (and subclasses) instance.
`add_unpublished` is only assigned by `start` and only read under
`self._started`, so its pre-`start` value is never observed. -/
structure CrawlerState where
  home_page : Option String
  user_agent : String
  max_depth : Int
  max_results : Int
  max_non_news_urls : Int
  results : List Urlset
  to_visit : List PageTuple
  seen : List String
  get_robots : Bool
  robots_urls : List String
  pages_visited : Nat
  _started : Bool
  add_unpublished : Bool
deriving DecidableEq

/-- The virtual methods and class attributes that vary over the three
crawler classes of crawl.py: `page_pref`, `DISCARD_PREF`,
`TRY_UNPUBLISHED_INDEX_PATHS`, `UNPUBLISHED_INDEX_PREF`, `UNPUB_DEPTH`,
whether `add_unpublished_paths` is overridden to add the gnews paths (and
with which `UNPUBLISHED_GNEWS_SITEMAP_PREF`), and whether `save` is
overridden with the google-news-tags filter. -/
structure CrawlerClass where
  page_pref : String → Rat
  DISCARD_PREF : Rat
  TRY_UNPUBLISHED_INDEX_PATHS : Bool
  UNPUBLISHED_INDEX_PREF : Rat
  UNPUB_DEPTH : Int
  gnews_unpub_pref : Option Rat
  gnews_filter : Bool

/-- DISCARD constant of crawl.py. -/
def DISCARD : Rat := 10

/-- From discover.py: `_UNPUBLISHED_SITEMAP_INDEX_PATHS`. -/
def _UNPUBLISHED_SITEMAP_INDEX_PATHS : List String := [
  "sitemap.xml",
  "sitemap.xml.gz",
  "sitemap_index.xml",
  "sitemap-index.xml",
  "sitemap_index.xml.gz",
  "sitemap-index.xml.gz",
  ".sitemap.xml",
  "sitemap",
  "admin/config/search/xmlsitemap",
  "sitemap/sitemap-index.xml",
  "arc/outboundfeeds/sitemap-index/?outputType=xml",
  "arc/outboundfeeds/news-sitemap-index/?outputType=xml"]

/-- From discover.py: `_UNPUBLISHED_GNEWS_SITEMAP_PATHS`. -/
def _UNPUBLISHED_GNEWS_SITEMAP_PATHS : List String := [
  "arc/outboundfeeds/news-sitemap/?outputType=xml",
  "arc/outboundfeeds/sitemap/latest/?outputType=xml",
  "feeds/sitemap_news.xml",
  "google-news-sitemap.xml",
  "googlenewssitemap.xml",
  "news-sitemap.xml",
  "news-sitemap-content.xml",
  "news/sitemap_news.xml",
  "sitemap_news.xml",
  "sitemap/news.xml",
  "sitemaps/news.xml",
  "sitemaps/new/news.xml.gz",
  "sitemaps/sitemap-google-news.xml",
  "tncms/sitemap/news.xml"]

/-- From crawl.py: `BaseCrawler.__init__(user_agent, max_depth, max_results,
max_non_news_urls)`: the only place where `results`, `to_visit`, `seen`,
`robots_urls` and `pages_visited` are (re)initialized. -/
def init_crawler (user_agent : String) (max_depth max_results max_non_news_urls : Int) :
    CrawlerState :=
  { home_page := none
    user_agent := user_agent
    max_depth := max_depth
    max_results := max_results
    max_non_news_urls := max_non_news_urls
    results := []
    to_visit := []
    seen := []
    get_robots := true
    robots_urls := []
    pages_visited := 0
    _started := false
    add_unpublished := false }

/-- Python's `s.endswith(suffix)`. -/
def str_endswith (s suffix : String) : Bool :=
  suffix.data.isSuffixOf s.data

/-- From crawl.py: `BaseCrawler.start(home_page, add_unpublished)`: appends a trailing
slash when missing, records the home page, re-enters the robots
(bootstrapping) phase and marks the session started.  It touches no other
field. -/
def start (st : CrawlerState) (home_page : String) (add_unpublished : Bool) :
    CrawlerState :=
  { st with
    home_page := some (if str_endswith home_page "/" then home_page else home_page ++ "/")
    add_unpublished := add_unpublished
    get_robots := true
    _started := true }

/-- The effective preference of `_add_url`: the explicit `pref` argument
when given, else `self.page_pref(url)`. -/
def effPref (C : CrawlerClass) (pref0 : Option Rat) (url : String) : Rat :=
  match pref0 with
  | some p => p
  | none => C.page_pref url

/-- From crawl.py: `BaseCrawler._add_url(depth, url, origin, pref)`: normalize, skip if
seen, else mark seen and either discard (pref at/above `DISCARD_PREF`) or
push onto the heap. -/
def _add_url (C : CrawlerClass) (n : String → String) (st : CrawlerState)
    (depth : Int) (url : String) (origin : String) (pref0 : Option Rat) :
    CrawlerState :=
  if n url ∈ st.seen then st
  else if C.DISCARD_PREF ≤ effPref C pref0 url then
    { st with seen := n url :: st.seen }
  else
    { st with
      seen := n url :: st.seen
      to_visit := heappush st.to_visit
        { pref := effPref C pref0 url, depth := depth, url := url, origin := origin } }

/-- From crawl.py: `BaseCrawler._add_list(depth, url_list, add_home_page, origin, pref)`.
Its `assert self._started` / `assert self.home_page` are established by
`visit_one`'s own entry checks before every call, so the model reads the
unwrapped home page (`getD ""` is never taken on a reachable call). -/
def _add_list (C : CrawlerClass) (n : String → String) (st : CrawlerState)
    (depth : Int) (url_list : List String) (add_home_page : Bool)
    (origin : String) (pref0 : Option Rat) : CrawlerState :=
  url_list.foldl
    (fun s url =>
      _add_url C n s depth
        (if add_home_page then s.home_page.getD "" ++ url else url) origin pref0)
    st

/-- The float literal `0.1` of crawl.py as an exact rational (written in
normalized `num/den` form so that it evaluates without gcd normalization;
the 2e-18 binary-rounding gap of the float has no effect on any comparison
in the source's value range). -/
def FLOAT_0_1 : Rat := Rat.mk' 1 10 (by decide) (Nat.coprime_one_left 10)

/-- From crawl.py: `add_unpublished_paths`: `GNewsCrawlerFull` (and `GNewsCrawler`) first
add the gnews well-known paths at `UNPUBLISHED_GNEWS_SITEMAP_PREF + 0.1`,
then the `BaseCrawler` body runs, adding the index well-known paths only
under `TRY_UNPUBLISHED_INDEX_PATHS` (which is `False` in every class of
crawl.py). -/
def add_unpublished_paths (C : CrawlerClass) (n : String → String)
    (st : CrawlerState) : CrawlerState :=
  let st1 := match C.gnews_unpub_pref with
    | some gp =>
        _add_list C n st C.UNPUB_DEPTH _UNPUBLISHED_GNEWS_SITEMAP_PATHS true
          "unpub-gnews-paths" (some (gp + FLOAT_0_1))
    | none => st
  if C.TRY_UNPUBLISHED_INDEX_PATHS then
    _add_list C n st1 C.UNPUB_DEPTH _UNPUBLISHED_SITEMAP_INDEX_PATHS true
      "unpub-index-paths" (some (C.UNPUBLISHED_INDEX_PREF + FLOAT_0_1))
  else st1

/-- From crawl.py: `save(urls, pref)`: the `GNewsCrawlerFull` override rejects urlsets
without google news tags; otherwise `BaseCrawler.save` unconditionally
appends and returns whether `len(self.results) >= self.max_results` now
holds. -/
def save (C : CrawlerClass) (st : CrawlerState) (us : Urlset) (_pref : Rat) :
    CrawlerState × Bool :=
  if C.gnews_filter && us.google_news_tags.isEmpty then (st, false)
  else
    ({ st with results := st.results ++ [us] },
      decide (st.max_results ≤ ((st.results.length : Int) + 1)))

/-- The robots (bootstrapping) arm of `visit_one`: best-effort fetch of the
robots.txt sitemap list (a caught fetch exception leaves `robots_urls` and
the frontier untouched), optional well-known paths, then leave the robots
phase. -/
def bootstrap (C : CrawlerClass) (n : String → String) (st : CrawlerState)
    (robots : Option (List String)) : CrawlerState :=
  let st1 := match robots with
    | some urls =>
        _add_list C n { st with robots_urls := urls } 0 urls false "robots.txt" none
    | none => st
  if st1.add_unpublished then
    { add_unpublished_paths C n st1 with get_robots := false }
  else
    { st1 with get_robots := false }

/-- The fetch-and-dispatch part of the visiting arm of `visit_one`, after
the pop: a caught fetch exception or falsy return does nothing; an index
document is expanded at `depth + 1` unless that exceeds `max_depth`; a
urlset goes to `save` (the returned flag makes `visit_one` return `DONE`);
an unknown type is only logged. -/
def visit_fetched (C : CrawlerClass) (n : String → String) (st : CrawlerState)
    (page : PageTuple) (f : FetchRes) : CrawlerState × Bool :=
  match f with
  | FetchRes.exc => (st, false)
  | FetchRes.ret none => (st, false)
  | FetchRes.ret (some (Sitemap.index sub_sitemap_urls)) =>
      (if page.depth + 1 ≤ st.max_depth then
        sub_sitemap_urls.foldl
          (fun s suburl =>
            _add_url C n s (page.depth + 1) suburl
              (page.origin ++ " -> " ++ page.url) none)
          st
      else st, false)
  | FetchRes.ret (some (Sitemap.urlset us)) => save C st us page.pref
  | FetchRes.ret (some (Sitemap.other _)) => (st, false)

/-- The common tail of `visit_one`: `MORE` while the frontier is non-empty,
else clear `_started` and report `FIN`. -/
def visit_finish (st : CrawlerState) : CrawlerState × VisitResult :=
  if st.to_visit.length > 0 then (st, VisitResult.MORE)
  else ({ st with _started := false }, VisitResult.FIN)

/-- The visiting arm of `visit_one` after a successful pop. -/
def visit_popped (C : CrawlerClass) (n : String → String) (st : CrawlerState)
    (page : PageTuple) (f : FetchRes) :
    Except CrawlError (CrawlerState × VisitResult) :=
  if (visit_fetched C n st page f).2 then
    Except.ok ((visit_fetched C n st page f).1, VisitResult.DONE)
  else Except.ok (visit_finish (visit_fetched C n st page f).1)

/-- The body of `visit_one` after its entry checks (with `pages_visited`
already incremented). -/
def visit_started (C : CrawlerClass) (n : String → String) (st : CrawlerState)
    (inp : VisitInput) : Except CrawlError (CrawlerState × VisitResult) :=
  if st.get_robots then Except.ok (visit_finish (bootstrap C n st inp.robots))
  else
    match heappop st.to_visit with
    | none => Except.error CrawlError.indexError
    | some (page, rest) =>
        visit_popped C n { st with to_visit := rest } page inp.fetch

/-- From crawl.py: `BaseCrawler.visit_one(timeout)`: raise `CrawlerException` when not
started, `assert self.home_page` (falsy when `None` or empty), count the
visit, then run the robots arm or the pop-fetch-dispatch arm. -/
def visit_one (C : CrawlerClass) (n : String → String) (st : CrawlerState)
    (inp : VisitInput) : Except CrawlError (CrawlerState × VisitResult) :=
  if st._started = false then
    Except.error (CrawlError.crawlerException "need to call start")
  else
    match st.home_page with
    | none => Except.error CrawlError.assertionError
    | some hp =>
        if hp = "" then Except.error CrawlError.assertionError
        else
          visit_started C n { st with pages_visited := st.pages_visited + 1 } inp

/-- Convenience for concrete runs: the post-state of one `visit_one` step
(identity on error, which never happens in the concrete runs below). -/
def runStep (C : CrawlerClass) (n : String → String) (st : CrawlerState)
    (inp : VisitInput) : CrawlerState :=
  match visit_one C n st inp with
  | Except.ok p => p.1
  | Except.error _ => st

/-- Class-attribute constant of `BaseCrawler`. -/
def BaseCrawler.UNPUBLISHED_INDEX_PREF : Rat := 1

/-- The `BaseCrawler` class: constant-zero `page_pref`, no well-known-path
seeding (its `TRY_UNPUBLISHED_INDEX_PATHS` is `False`), unconditional
`save`. -/
def BaseCrawler.cls : CrawlerClass :=
  { page_pref := fun _ => 0
    DISCARD_PREF := DISCARD
    TRY_UNPUBLISHED_INDEX_PATHS := false
    UNPUBLISHED_INDEX_PREF := BaseCrawler.UNPUBLISHED_INDEX_PREF
    UNPUB_DEPTH := 1
    gnews_unpub_pref := none
    gnews_filter := false }

/-- The `GNewsCrawlerFull` class: same scorer as `BaseCrawler`, adds the
gnews well-known paths at `UNPUBLISHED_GNEWS_SITEMAP_PREF = 0.0` plus 0.1,
and filters `save` on google news tags. -/
def GNewsCrawlerFull.cls : CrawlerClass :=
  { page_pref := fun _ => 0
    DISCARD_PREF := DISCARD
    TRY_UNPUBLISHED_INDEX_PATHS := false
    UNPUBLISHED_INDEX_PREF := BaseCrawler.UNPUBLISHED_INDEX_PREF
    UNPUB_DEPTH := 1
    gnews_unpub_pref := some 0
    gnews_filter := true }

/-- Result record of `urllib.parse.urlsplit`. -/
structure SplitResult where
  scheme : String
  netloc : String
  path : String
  query : String
  fragment : String
deriving DecidableEq

/-- Characters allowed in a URL scheme (`urllib.parse.scheme_chars`). -/
def scheme_char (c : Char) : Bool :=
  c.isAlpha || c.isDigit || c == '+' || c == '-' || c == '.'

/-- Split at the first occurrence of `c`, Python's `s.split(c, 1)` guarded
by `if c in s` (the second component is `none` when `c` does not occur). -/
def splitOn1 (s : List Char) (c : Char) : List Char × Option (List Char) :=
  match s.findIdx? (fun x => x == c) with
  | some i => (s.take i, some (s.drop (i + 1)))
  | none => (s, none)

/-- Modelled from the Python stdlib (external to this repository):
`urllib.parse.urlsplit` for URLs free of the unsafe bytes and surrounding
whitespace it strips, and with no bracketed-host validation (no input in
this development has either).  Scheme is split off a leading
`alpha scheme_char* :`, netloc follows a leading `//` up to the next
`/ ? #`, then the fragment is everything after the first `#` and the query
everything after the first `?`; the path is what remains. -/
def urlsplit (url : String) : SplitResult :=
  let s := url.data
  let schemeSplit :=
    match s.findIdx? (fun x => x == ':') with
    | some i =>
        if decide (0 < i) && (s.take i).all scheme_char && (s.headD ' ').isAlpha then
          ((s.take i).map Char.toLower, s.drop (i + 1))
        else ([], s)
    | none => ([], s)
  let rest := schemeSplit.2
  let netlocSplit :=
    if rest.take 2 = ['/', '/'] then
      let after := rest.drop 2
      let j := (after.findIdx? (fun x => x == '/' || x == '?' || x == '#')).getD after.length
      (after.take j, after.drop j)
    else ([], rest)
  let fragSplit := splitOn1 netlocSplit.2 '#'
  let querySplit := splitOn1 fragSplit.1 '?'
  { scheme := String.mk schemeSplit.1
    netloc := String.mk netlocSplit.1
    path := String.mk querySplit.1
    query := String.mk ((querySplit.2).getD [])
    fragment := String.mk ((fragSplit.2).getD []) }

/-- Star-free regular expressions, enough for every alternative of
`GNewsCrawler.SKIP_RE`: literals, character classes, the anchors `^` `$`,
concatenation and alternation. -/
inductive RE where
  | eps
  | lit (c : Char)
  | cls (p : Char → Bool)
  | bol
  | eol
  | cat (a b : RE)
  | alt (a b : RE)

/-- All end positions from which `re` can match starting at position `i`
of `s`. -/
def REmatch (s : List Char) : RE → Nat → List Nat
  | RE.eps, i => [i]
  | RE.lit c, i => if i < s.length ∧ s.getD i ' ' = c then [i + 1] else []
  | RE.cls p, i => if i < s.length ∧ p (s.getD i ' ') = true then [i + 1] else []
  | RE.bol, i => if i = 0 then [i] else []
  | RE.eol, i => if i = s.length then [i] else []
  | RE.cat a b, i => (REmatch s a i).flatMap (REmatch s b)
  | RE.alt a b, i => REmatch s a i ++ REmatch s b i

/-- Python's unanchored `re.search`: does `re` match starting anywhere? -/
def research (re : RE) (s : String) : Bool :=
  (List.range (s.data.length + 1)).any (fun i => !(REmatch s.data re i).isEmpty)

/-- Class `\d` (the inputs scored here are ASCII, where Python's unicode
digit class coincides with `Char.isDigit`). -/
def reDigit : RE := RE.cls Char.isDigit

/-- Class `\D`. -/
def reNonDigit : RE := RE.cls (fun c => !c.isDigit)

/-- A class enumerated by a character list, e.g. `[01]`. -/
def reOneOf (cs : List Char) : RE := RE.cls (fun c => cs.contains c)

/-- A literal string as a regex. -/
def relit (s : String) : RE := s.data.foldr (fun c r => RE.cat (RE.lit c) r) RE.eps

/-- Concatenation of a list of regexes. -/
def recat (l : List RE) : RE := l.foldr RE.cat RE.eps

/-- Alternation of a list of regexes (empty alternation never matches). -/
def realt (l : List RE) : RE := l.foldr RE.alt (RE.cls (fun _ => false))

/-- Transliteration of `GNewsCrawler.SKIP_RE`, alternative by alternative in source order:
`date=`, `year=`, `yyyy=`, `(^|\D)(1[89]|2[012])\d\d($|\D|[01]\d)`,
`[12]\d\d\d-[01]\d-[0-3]\d`, `\d\d-[a-z][a-z][a-z]-\d\d`,
`high-school-answers`, `high-school-textbooks`, `page=\d\d`, `post-\d\d`,
`quotesitemap\d`, `sitemap=\d\d`, `sitemap\d\d`, `sitemap-\d\d`,
`sitemap-papers-\d\d`, `sitemapall\d`, `sitemapvideoall\d`, `tag-\d\d`,
`\d\d\d\d-\d\d\d\d`, `\d\d\.xml`. -/
def GNewsCrawler.SKIP_RE : RE := realt [
  relit "date=",
  relit "year=",
  relit "yyyy=",
  recat [RE.alt RE.bol reNonDigit,
         RE.alt (recat [RE.lit '1', reOneOf ['8', '9']])
                (recat [RE.lit '2', reOneOf ['0', '1', '2']]),
         reDigit, reDigit,
         realt [RE.eol, reNonDigit, recat [reOneOf ['0', '1'], reDigit]]],
  recat [reOneOf ['1', '2'], reDigit, reDigit, reDigit, RE.lit '-',
         reOneOf ['0', '1'], reDigit, RE.lit '-',
         reOneOf ['0', '1', '2', '3'], reDigit],
  recat [reDigit, reDigit, RE.lit '-', RE.cls Char.isLower, RE.cls Char.isLower,
         RE.cls Char.isLower, RE.lit '-', reDigit, reDigit],
  relit "high-school-answers",
  relit "high-school-textbooks",
  recat [relit "page=", reDigit, reDigit],
  recat [relit "post-", reDigit, reDigit],
  recat [relit "quotesitemap", reDigit],
  recat [relit "sitemap=", reDigit, reDigit],
  recat [relit "sitemap", reDigit, reDigit],
  recat [relit "sitemap-", reDigit, reDigit],
  recat [relit "sitemap-papers-", reDigit, reDigit],
  recat [relit "sitemapall", reDigit],
  recat [relit "sitemapvideoall", reDigit],
  recat [relit "tag-", reDigit, reDigit],
  recat [reDigit, reDigit, reDigit, reDigit, RE.lit '-',
         reDigit, reDigit, reDigit, reDigit],
  recat [reDigit, reDigit, relit ".xml"]]

/-- Python `str.lower()` (ASCII as in every path scored here). -/
def str_lower (s : String) : String := String.mk (s.data.map Char.toLower)

/-- Python's substring test `needle in hay`. -/
def str_contains (hay needle : String) : Bool :=
  (List.range (hay.data.length + 1)).any
    (fun i => needle.data.isPrefixOf (hay.data.drop i))

/-- Constant `GNewsCrawler.SECTION_PREF = DISCARD / 2`. -/
def GNewsCrawler.SECTION_PREF : Rat := DISCARD / 2

/-- Constant `GNewsCrawler.UNPUBLISHED_GNEWS_SITEMAP_PREF = -0.25` (exact as a
float; written in normalized `num/den` form so that it evaluates without
gcd normalization). -/
def GNewsCrawler.UNPUBLISHED_GNEWS_SITEMAP_PREF : Rat :=
  Rat.mk' (-1) 4 (by decide) (by exact Nat.coprime_one_left 4)

/-- Table `GNewsCrawler.PREF_TOKENS`. -/
def GNewsCrawler.PREF_TOKENS : List (String × Rat) :=
  [("google-news", -10), ("googlenews", -10), ("news", -5), (".html", DISCARD)]

/-- Table `GNewsCrawler.SECTIONS`. -/
def GNewsCrawler.SECTIONS : List String := [
  "athletic", "author", "best", "books", "cities", "category", "categories",
  "collects", "companies", "company", "cooking", "event",
  "high-school-answers", "games", "local", "market-data", "papers", "people",
  "performer", "profile", "recipe", "region", "review", "roster", "schedule",
  "section", "seller", "sports", "staff", "stats", "tags", "taxonomy",
  "taxonomies", "teams", "venue", "vertical", "video", "weather", "wirecutter"]

/-- From crawl.py: `GNewsCrawler.page_pref(url)`: exact-path hits on the two well-known
tables first, then the `SKIP_RE` prune on the lower-cased `path[?query]`,
then accumulated section penalties (with the early return at
`DISCARD_PREF`), then the token weights. -/
def GNewsCrawler.page_pref (url : String) : Rat :=
  let u := urlsplit url
  if u.path ∈ _UNPUBLISHED_GNEWS_SITEMAP_PATHS then
    GNewsCrawler.UNPUBLISHED_GNEWS_SITEMAP_PREF
  else if u.path ∈ _UNPUBLISHED_SITEMAP_INDEX_PATHS then
    BaseCrawler.UNPUBLISHED_INDEX_PREF
  else
    let path := str_lower u.path ++
      (if u.query = "" then "" else "?" ++ str_lower u.query)
    if research GNewsCrawler.SKIP_RE path then DISCARD
    else
      let pref := GNewsCrawler.SECTIONS.foldl
        (fun pr sec => if str_contains path sec then pr + GNewsCrawler.SECTION_PREF else pr) 0
      if DISCARD ≤ pref then pref
      else GNewsCrawler.PREF_TOKENS.foldl
        (fun pr tw => if str_contains path tw.1 then pr + tw.2 else pr) pref

/-- The `GNewsCrawler` class: heuristic scorer, gnews well-known paths at
`-0.25 + 0.1`, google-news-tags save filter. -/
def GNewsCrawler.cls : CrawlerClass :=
  { page_pref := GNewsCrawler.page_pref
    DISCARD_PREF := DISCARD
    TRY_UNPUBLISHED_INDEX_PATHS := false
    UNPUBLISHED_INDEX_PREF := BaseCrawler.UNPUBLISHED_INDEX_PREF
    UNPUB_DEPTH := 1
    gnews_unpub_pref := some GNewsCrawler.UNPUBLISHED_GNEWS_SITEMAP_PREF
    gnews_filter := true }

/-- The strict part of the heap order, written out as the lexicographic
comparison of the tuple `(pref, depth, url, origin)`. -/
def ptLtP (a b : PageTuple) : Prop :=
  a.pref < b.pref ∨ (a.pref = b.pref ∧ (a.depth < b.depth ∨ (a.depth = b.depth ∧
    (strLtb a.url.data b.url.data = true ∨
      (a.url = b.url ∧ strLtb a.origin.data b.origin.data = true)))))

/-- Dedup invariant of the Frontier: no two queued entries share a
normalized URL, and every queued entry's normalized URL is in `seen`. -/
abbrev FrontierInv (n : String → String) (st : CrawlerState) : Prop :=
  (st.to_visit.map (fun p => n p.url)).Nodup ∧
    ∀ p ∈ st.to_visit, n p.url ∈ st.seen

/-- The engine fields that `_add_url` (and list seeding) never touches. -/
def engFields (s : CrawlerState) :=
  (s.results, s.max_results, s._started, s.get_robots, s.home_page,
   s.max_depth, s.add_unpublished, s.pages_visited, s.robots_urls)

/-- The engine fields that the whole pop-fetch-dispatch arm never touches. -/
def engFields2 (s : CrawlerState) :=
  (s.max_results, s._started, s.get_robots, s.home_page,
   s.max_depth, s.add_unpublished, s.pages_visited, s.robots_urls)

/-- The event "the Collector signaled quota-reached on this step": `save`
appended (results grew by one) and the new length reached `max_results`. -/
def quotaSignaled (st st' : CrawlerState) : Prop :=
  st'.results.length = st.results.length + 1 ∧
    st'.max_results ≤ (st'.results.length : Int)

def c_st1 : CrawlerState := start (init_crawler "ua" 9 1 0) "http://e.com" true

def c_i1 : VisitInput :=
  { robots := some ["http://e.com/a.xml", "http://e.com/b.xml"],
    fetch := FetchRes.ret none }

def c_us1 : Urlset := { url := "http://e.com/a.xml", google_news_tags := [] }

def c_us2 : Urlset := { url := "http://e.com/b.xml", google_news_tags := [] }

def c_i2 : VisitInput :=
  { robots := none, fetch := FetchRes.ret (some (Sitemap.urlset c_us1)) }

def c_i3 : VisitInput :=
  { robots := none, fetch := FetchRes.ret (some (Sitemap.urlset c_us2)) }

def c_st2 : CrawlerState := runStep BaseCrawler.cls id c_st1 c_i1

def c_st3 : CrawlerState := runStep BaseCrawler.cls id c_st2 c_i2

def c_st4 : CrawlerState := runStep BaseCrawler.cls id c_st3 c_i3

def c1_st1 : CrawlerState := start (init_crawler "ua" 1 3 0) "http://example.com" true

def c1_i : VisitInput :=
  { robots := some ["http://example.com/s.xml"], fetch := FetchRes.ret none }

def c1_st2 : CrawlerState := runStep BaseCrawler.cls id c1_st1 c1_i

def c1_st3 : CrawlerState := start c1_st2 "http://other.com" true

def c1_st5 : CrawlerState := start c_st3 "http://other.com" true

def c8_url : String := "https://nypost.com/sitemap-1999.xml?mm=12&dd=31"

def c8_st : CrawlerState := start (init_crawler "ua" 1 3 0) "https://nypost.com" true

/-- Step sequences from a state in which every step so far returned MORE
or FIN (never DONE). -/
inductive StepsNoDone (C : CrawlerClass) (n : String → String) :
    CrawlerState → CrawlerState → Prop where
  | refl (st : CrawlerState) : StepsNoDone C n st st
  | step {st0 st1 st2 : CrawlerState} {inp : VisitInput} {r : VisitResult} :
      StepsNoDone C n st0 st1 → visit_one C n st1 inp = Except.ok (st2, r) →
      r ≠ VisitResult.DONE → StepsNoDone C n st0 st2

def c7_st0 : CrawlerState := start (init_crawler "ua" 0 5 0) "http://e.com" true

def c7_i0 : VisitInput :=
  { robots := some ["http://e.com/a.xml"], fetch := FetchRes.ret none }

def c7_st1 : CrawlerState := runStep BaseCrawler.cls id c7_st0 c7_i0

def c7_page : PageTuple :=
  { pref := 0, depth := 0, url := "http://e.com/a.xml", origin := "robots.txt" }

def c7_i1 : VisitInput :=
  { robots := none,
    fetch := FetchRes.ret (some (Sitemap.index ["http://e.com/c1.xml"])) }

def c7_st2 : CrawlerState := runStep BaseCrawler.cls id c7_st1 c7_i1

def c6_p1 : PageTuple :=
  { pref := 0, depth := 1, url := "https://e.com/s.xml", origin := "o" }

def c6_p2 : PageTuple :=
  { pref := 0, depth := 2, url := "https://e.com/s.xml", origin := "o" }

def c9_ex : VisitInput := { robots := none, fetch := FetchRes.exc }

def c_pA : PageTuple :=
  { pref := 0, depth := 0, url := "http://e.com/a.xml", origin := "robots.txt" }

def c_pB : PageTuple :=
  { pref := 0, depth := 0, url := "http://e.com/b.xml", origin := "robots.txt" }

theorem strLtb_irrefl (x : List Char) : strLtb x x = false := by
  induction x with
  | nil => rfl
  | cons a as ih => simp [strLtb, lt_self_iff_false, ih]

theorem strLtb_asymm : ∀ {x y : List Char}, strLtb x y = true → strLtb y x = false
  | [], [], h => by simp [strLtb] at h
  | [], _ :: _, _ => rfl
  | _ :: _, [], h => by simp [strLtb] at h
  | a :: as, b :: bs, h => by
      simp only [strLtb] at h ⊢
      rcases lt_trichotomy a b with hab | hab | hab
      · simp [not_lt_of_gt hab, ne_of_gt hab, hab]
      · subst hab
        simp only [lt_self_iff_false, if_false] at h ⊢
        exact strLtb_asymm h
      · simp [hab, not_lt_of_gt hab] at h

theorem strLtb_eq : ∀ {x y : List Char}, strLtb x y = false → strLtb y x = false → x = y
  | [], [], _, _ => rfl
  | [], _ :: _, h1, _ => by simp [strLtb] at h1
  | _ :: _, [], _, h2 => by simp [strLtb] at h2
  | a :: as, b :: bs, h1, h2 => by
      simp only [strLtb] at h1 h2
      rcases lt_trichotomy a b with hab | hab | hab
      · simp [hab] at h1
      · subst hab
        simp only [lt_self_iff_false, if_false] at h1 h2
        exact congrArg (a :: ·) (strLtb_eq h1 h2)
      · simp [hab] at h2

theorem strLtb_trans : ∀ {x y z : List Char},
    strLtb x y = true → strLtb y z = true → strLtb x z = true
  | [], [], _, h1, _ => by simp [strLtb] at h1
  | [], _ :: _, [], _, h2 => by simp [strLtb] at h2
  | [], _ :: _, _ :: _, _, _ => rfl
  | _ :: _, [], _, h1, _ => by simp [strLtb] at h1
  | _ :: _, _ :: _, [], _, h2 => by simp [strLtb] at h2
  | a :: as, b :: bs, c :: cs, h1, h2 => by
      simp only [strLtb] at h1 h2 ⊢
      rcases lt_trichotomy a b with hab | hab | hab
      · rcases lt_trichotomy b c with hbc | hbc | hbc
        · simp [lt_trans hab hbc]
        · subst hbc; simp [hab]
        · rw [if_neg (not_lt_of_gt hbc), if_pos hbc] at h2
          exact absurd h2 Bool.false_ne_true
      · subst hab
        rcases lt_trichotomy a c with hac | hac | hac
        · simp [hac]
        · subst hac
          simp only [lt_self_iff_false, if_false] at h1 h2 ⊢
          exact strLtb_trans h1 h2
        · rw [if_neg (not_lt_of_gt hac), if_pos hac] at h2
          exact absurd h2 Bool.false_ne_true
      · rw [if_neg (not_lt_of_gt hab), if_pos hab] at h1
        exact absurd h1 Bool.false_ne_true

theorem str_data_inj {s t : String} (h : s.data = t.data) : s = t := by
  cases s; cases t; exact congrArg String.mk h

theorem strLtb_cases (x y : List Char) :
    strLtb x y = true ∨ (strLtb x y = false ∧ strLtb y x = false ∧ x = y) ∨
      (strLtb x y = false ∧ strLtb y x = true) := by
  cases hxy : strLtb x y
  · cases hyx : strLtb y x
    · exact Or.inr (Or.inl ⟨rfl, rfl, strLtb_eq hxy hyx⟩)
    · exact Or.inr (Or.inr ⟨rfl, rfl⟩)
  · exact Or.inl rfl

theorem ptLeb_iff (a b : PageTuple) : ptLeb a b = true ↔ (ptLtP a b ∨ a = b) := by
  obtain ⟨ap, ad, au, ao⟩ := a
  obtain ⟨bp, bd, bu, bo⟩ := b
  simp only [ptLeb, ptLtP, PageTuple.mk.injEq]
  rcases lt_trichotomy ap bp with h1 | h1 | h1
  · simp [h1]
  · subst h1
    simp only [lt_self_iff_false, if_false, true_and, false_or]
    rcases lt_trichotomy ad bd with h2 | h2 | h2
    · simp [h2]
    · subst h2
      simp only [lt_self_iff_false, if_false, true_and, false_or]
      rcases strLtb_cases au.data bu.data with h3 | ⟨h3, h4, h5⟩ | ⟨h3, h4⟩
      · simp [h3]
      · have hu : au = bu := str_data_inj h5
        subst hu
        simp only [h3, if_false, strLtb_irrefl, true_and, false_or]
        rcases strLtb_cases ao.data bo.data with g | ⟨g1, g2, g3⟩ | ⟨g1, g2⟩
        · simp [g]
        · have ho : ao = bo := str_data_inj g3
          subst ho
          simp [g1]
        · have hne : ao ≠ bo := by
            intro he
            subst he
            rw [strLtb_irrefl] at g2
            exact Bool.false_ne_true g2
          simp [g1, g2, hne]
      · have hne : au ≠ bu := by
          intro he
          subst he
          rw [strLtb_irrefl] at h4
          exact Bool.false_ne_true h4
        simp [h3, h4, hne]
    · simp [h2, not_lt_of_gt h2, ne_of_gt h2]
  · simp [h1, not_lt_of_gt h1, ne_of_gt h1]

theorem ptLt_irrefl (a : PageTuple) : ¬ ptLtP a a := by
  simp [ptLtP, strLtb_irrefl]

theorem ptLt_asymm {a b : PageTuple} (h : ptLtP a b) : ¬ ptLtP b a := by
  obtain ⟨ap, ad, au, ao⟩ := a
  obtain ⟨bp, bd, bu, bo⟩ := b
  simp only [ptLtP] at h ⊢
  rcases h with h | ⟨hp, h⟩
  · simp [not_lt_of_gt h, ne_of_gt h]
  · subst hp
    simp only [lt_self_iff_false, true_and, false_or]
    rcases h with h | ⟨hd, h⟩
    · simp [not_lt_of_gt h, ne_of_gt h]
    · subst hd
      simp only [lt_self_iff_false, true_and, false_or]
      rcases h with h | ⟨hu, h⟩
      · have h2 := strLtb_asymm h
        have hne : bu ≠ au := by
          intro he
          rw [he, strLtb_irrefl] at h
          exact Bool.false_ne_true h
        simp [h2, hne]
      · subst hu
        have h2 := strLtb_asymm h
        simp [h2, strLtb_irrefl]

theorem ptLt_trans {a b c : PageTuple} (h1 : ptLtP a b) (h2 : ptLtP b c) :
    ptLtP a c := by
  obtain ⟨ap, ad, au, ao⟩ := a
  obtain ⟨bp, bd, bu, bo⟩ := b
  obtain ⟨cp, cd, cu, co⟩ := c
  simp only [ptLtP] at h1 h2 ⊢
  rcases h1 with h1 | ⟨hp1, h1⟩
  · rcases h2 with h2 | ⟨hp2, h2⟩
    · exact Or.inl (lt_trans h1 h2)
    · exact Or.inl (hp2 ▸ h1)
  · subst hp1
    rcases h2 with h2 | ⟨hp2, h2⟩
    · exact Or.inl h2
    · subst hp2
      refine Or.inr ⟨rfl, ?_⟩
      rcases h1 with h1 | ⟨hd1, h1⟩
      · rcases h2 with h2 | ⟨hd2, h2⟩
        · exact Or.inl (lt_trans h1 h2)
        · exact Or.inl (hd2 ▸ h1)
      · subst hd1
        rcases h2 with h2 | ⟨hd2, h2⟩
        · exact Or.inl h2
        · subst hd2
          refine Or.inr ⟨rfl, ?_⟩
          rcases h1 with h1 | ⟨hu1, h1⟩
          · rcases h2 with h2 | ⟨hu2, h2⟩
            · exact Or.inl (strLtb_trans h1 h2)
            · exact Or.inl (hu2 ▸ h1)
          · subst hu1
            rcases h2 with h2 | ⟨hu2, h2⟩
            · exact Or.inl h2
            · subst hu2
              exact Or.inr ⟨rfl, strLtb_trans h1 h2⟩

theorem ptLt_connex {a b : PageTuple} (h1 : ¬ ptLtP a b) (h2 : ¬ ptLtP b a) :
    a = b := by
  obtain ⟨ap, ad, au, ao⟩ := a
  obtain ⟨bp, bd, bu, bo⟩ := b
  simp only [ptLtP, PageTuple.mk.injEq] at h1 h2 ⊢
  rcases lt_trichotomy ap bp with h | h | h
  · exact absurd (Or.inl h) h1
  · subst h
    simp only [lt_self_iff_false, true_and, false_or] at h1 h2
    rcases lt_trichotomy ad bd with h | h | h
    · exact absurd (Or.inl h) h1
    · subst h
      simp only [lt_self_iff_false, true_and, false_or] at h1 h2
      rcases strLtb_cases au.data bu.data with h | ⟨ha, hb, hc⟩ | ⟨ha, hb⟩
      · exact absurd (Or.inl h) h1
      · have hu : au = bu := str_data_inj hc
        subst hu
        rcases strLtb_cases ao.data bo.data with g | ⟨ga, gb, gc⟩ | ⟨ga, gb⟩
        · exact absurd (Or.inr ⟨rfl, g⟩) h1
        · exact ⟨rfl, rfl, rfl, str_data_inj gc⟩
        · exact absurd (Or.inr ⟨rfl, gb⟩) h2
      · exact absurd (Or.inl hb) h2
    · exact absurd (Or.inl h) h2
  · exact absurd (Or.inl h) h2

theorem ptLe_total (a b : PageTuple) : PageTuple.le a b ∨ PageTuple.le b a := by
  by_cases h1 : ptLtP a b
  · exact Or.inl ((ptLeb_iff a b).2 (Or.inl h1))
  · by_cases h2 : ptLtP b a
    · exact Or.inr ((ptLeb_iff b a).2 (Or.inl h2))
    · exact Or.inl ((ptLeb_iff a b).2 (Or.inr (ptLt_connex h1 h2)))

theorem ptLe_antisymm {a b : PageTuple} (h1 : PageTuple.le a b)
    (h2 : PageTuple.le b a) : a = b := by
  rcases (ptLeb_iff a b).1 h1 with h | h
  · rcases (ptLeb_iff b a).1 h2 with g | g
    · exact absurd g (ptLt_asymm h)
    · exact g.symm
  · exact h

theorem ptLe_trans {a b c : PageTuple} (h1 : PageTuple.le a b)
    (h2 : PageTuple.le b c) : PageTuple.le a c := by
  rcases (ptLeb_iff a b).1 h1 with h | rfl
  · rcases (ptLeb_iff b c).1 h2 with g | rfl
    · exact (ptLeb_iff a c).2 (Or.inl (ptLt_trans h g))
    · exact (ptLeb_iff a b).2 (Or.inl h)
  · exact h2

instance : IsTotal PageTuple PageTuple.le := ⟨ptLe_total⟩

instance : IsTrans PageTuple PageTuple.le := ⟨fun _ _ _ => ptLe_trans⟩

theorem sorted_heappush {heap : List PageTuple} (pt : PageTuple)
    (h : List.Sorted PageTuple.le heap) :
    List.Sorted PageTuple.le (heappush heap pt) :=
  List.Sorted.orderedInsert pt heap h

theorem heappop_least {heap : List PageTuple} {p : PageTuple}
    {rest : List PageTuple} (hs : List.Sorted PageTuple.le heap)
    (hp : heappop heap = some (p, rest)) :
    ∀ q ∈ heap, PageTuple.le p q := by
  cases heap with
  | nil => cases hp
  | cons x xs =>
      cases hp
      intro q hq
      rcases List.mem_cons.1 hq with rfl | hq
      · exact (ptLeb_iff q q).2 (Or.inr rfl)
      · exact (List.sorted_cons.1 hs).1 q hq

theorem foldl_preserves {σ α : Type} (f : σ → α → σ) (P : σ → Prop)
    (h : ∀ s a, P s → P (f s a)) : ∀ (l : List α) (s : σ), P s → P (l.foldl f s) := by
  intro l
  induction l with
  | nil => intro s hs; exact hs
  | cons a l ih => intro s hs; exact ih _ (h s a hs)

theorem mem_heappush {heap : List PageTuple} {pt q : PageTuple} :
    q ∈ heappush heap pt ↔ q = pt ∨ q ∈ heap :=
  List.mem_orderedInsert PageTuple.le

theorem add_url_fields (C : CrawlerClass) (n : String → String) (st : CrawlerState)
    (d : Int) (u o : String) (p : Option Rat) :
    (_add_url C n st d u o p).results = st.results ∧
    (_add_url C n st d u o p).max_results = st.max_results ∧
    (_add_url C n st d u o p)._started = st._started ∧
    (_add_url C n st d u o p).get_robots = st.get_robots ∧
    (_add_url C n st d u o p).home_page = st.home_page ∧
    (_add_url C n st d u o p).max_depth = st.max_depth ∧
    (_add_url C n st d u o p).add_unpublished = st.add_unpublished ∧
    (_add_url C n st d u o p).pages_visited = st.pages_visited ∧
    (_add_url C n st d u o p).robots_urls = st.robots_urls := by
  unfold _add_url
  split_ifs <;> simp

theorem add_url_seen_mono (C : CrawlerClass) (n : String → String) (st : CrawlerState)
    (d : Int) (u o : String) (p : Option Rat) :
    ∀ x ∈ st.seen, x ∈ (_add_url C n st d u o p).seen := by
  unfold _add_url
  split_ifs <;> intro x hx <;> simp [hx]

theorem add_url_to_visit_mem {C : CrawlerClass} {n : String → String} {st : CrawlerState}
    {d : Int} {u o : String} {p : Option Rat} {q : PageTuple}
    (hq : q ∈ (_add_url C n st d u o p).to_visit) :
    q ∈ st.to_visit ∨ (q.depth = d ∧ q.origin = o ∧ q.url = u) := by
  unfold _add_url at hq
  split_ifs at hq
  · exact Or.inl hq
  · exact Or.inl hq
  · rcases mem_heappush.1 hq with rfl | h
    · exact Or.inr ⟨rfl, rfl, rfl⟩
    · exact Or.inl h

theorem add_url_inv {C : CrawlerClass} {n : String → String} {st : CrawlerState}
    {d : Int} {u o : String} {p : Option Rat}
    (h : FrontierInv n st) : FrontierInv n (_add_url C n st d u o p) := by
  unfold _add_url
  split_ifs with h1 h2
  · exact h
  · refine ⟨h.1, fun q hq => ?_⟩
    simp only [List.mem_cons]
    exact Or.inr (h.2 q hq)
  · constructor
    · have hperm : (heappush st.to_visit
          { pref := effPref C p u, depth := d, url := u, origin := o }).map (fun q => n q.url)
          |>.Perm (n u :: st.to_visit.map (fun q => n q.url)) :=
        (List.perm_orderedInsert PageTuple.le _ st.to_visit).map _
      refine hperm.nodup_iff.2 ?_
      refine List.nodup_cons.2 ⟨?_, h.1⟩
      intro hmem
      rcases List.mem_map.1 hmem with ⟨q, hq, hqe⟩
      exact h1 (hqe ▸ h.2 q hq)
    · intro q hq
      simp only [List.mem_cons]
      rcases mem_heappush.1 hq with rfl | hmem
      · exact Or.inl rfl
      · exact Or.inr (h.2 q hmem)

theorem add_url_sorted {C : CrawlerClass} {n : String → String} {st : CrawlerState}
    {d : Int} {u o : String} {p : Option Rat}
    (h : List.Sorted PageTuple.le st.to_visit) :
    List.Sorted PageTuple.le (_add_url C n st d u o p).to_visit := by
  unfold _add_url
  split_ifs
  · exact h
  · exact h
  · exact sorted_heappush _ h

theorem visit_one_cases {C : CrawlerClass} {n : String → String} {st : CrawlerState}
    {inp : VisitInput} {st' : CrawlerState} {r : VisitResult}
    (h : visit_one C n st inp = Except.ok (st', r)) :
    st._started = true ∧
    ((st.get_robots = true ∧
        (st', r) = visit_finish (bootstrap C n
          { st with pages_visited := st.pages_visited + 1 } inp.robots)) ∨
     (st.get_robots = false ∧ ∃ page rest, st.to_visit = page :: rest ∧
        (((visit_fetched C n { st with pages_visited := st.pages_visited + 1, to_visit := rest } page inp.fetch).2 = true ∧
            (st', r) = ((visit_fetched C n { st with pages_visited := st.pages_visited + 1, to_visit := rest } page inp.fetch).1, VisitResult.DONE)) ∨
         ((visit_fetched C n { st with pages_visited := st.pages_visited + 1, to_visit := rest } page inp.fetch).2 = false ∧
            (st', r) = visit_finish (visit_fetched C n { st with pages_visited := st.pages_visited + 1, to_visit := rest } page inp.fetch).1)))) := by
  unfold visit_one at h
  split at h
  · exact absurd h (by simp)
  · next hstarted =>
    constructor
    · exact eq_true_of_ne_false hstarted
    · split at h
      · exact absurd h (by simp)
      · next hp hhp =>
        split at h
        · exact absurd h (by simp)
        · unfold visit_started at h
          split at h
          · next hrobots =>
            left
            refine ⟨?_, ?_⟩
            · simpa using hrobots
            · simp only [Except.ok.injEq] at h
              exact h.symm
          · next hrobots =>
            right
            refine ⟨by simpa using hrobots, ?_⟩
            rcases htv : st.to_visit with _ | ⟨page, rest⟩
            · rw [show ({ st with pages_visited := st.pages_visited + 1 } : CrawlerState).to_visit = st.to_visit from rfl, htv] at h
              unfold heappop at h
              exact absurd h (by simp)
            · refine ⟨page, rest, rfl, ?_⟩
              rw [show ({ st with pages_visited := st.pages_visited + 1 } : CrawlerState).to_visit = st.to_visit from rfl, htv] at h
              unfold heappop at h
              simp only at h
              unfold visit_popped at h
              split at h
              · next hdone =>
                left
                refine ⟨hdone, ?_⟩
                simp only [Except.ok.injEq] at h
                exact h.symm
              · next hdone =>
                right
                refine ⟨Bool.eq_false_iff.2 hdone, ?_⟩
                simp only [Except.ok.injEq] at h
                exact h.symm

theorem engFields_iff {s t : CrawlerState} (h : engFields s = engFields t) :
    s.results = t.results ∧ s.max_results = t.max_results ∧ s._started = t._started ∧
    s.get_robots = t.get_robots ∧ s.home_page = t.home_page ∧ s.max_depth = t.max_depth ∧
    s.add_unpublished = t.add_unpublished ∧ s.pages_visited = t.pages_visited ∧
    s.robots_urls = t.robots_urls := by
  unfold engFields at h
  simpa using h

theorem add_url_engFields (C : CrawlerClass) (n : String → String) (s : CrawlerState)
    (d : Int) (u o : String) (p : Option Rat) :
    engFields (_add_url C n s d u o p) = engFields s := by
  unfold engFields _add_url
  split_ifs <;> rfl

theorem add_list_engFields (C : CrawlerClass) (n : String → String) (st : CrawlerState)
    (d : Int) (l : List String) (ahp : Bool) (o : String) (p : Option Rat) :
    engFields (_add_list C n st d l ahp o p) = engFields st := by
  unfold _add_list
  exact foldl_preserves _ (fun s => engFields s = engFields st)
    (fun s a hs => (add_url_engFields C n s d _ o p).trans hs) l st rfl

theorem add_unpub_engFields (C : CrawlerClass) (n : String → String) (st : CrawlerState) :
    engFields (add_unpublished_paths C n st) = engFields st := by
  unfold add_unpublished_paths
  cases hg : C.gnews_unpub_pref <;> simp only <;> split_ifs <;>
    simp [add_list_engFields]

theorem save_spec (C : CrawlerClass) (st : CrawlerState) (us : Urlset) (p : Rat) :
    (save C st us p = (st, false)) ∨
    (save C st us p = ({ st with results := st.results ++ [us] },
      decide (st.max_results ≤ ((st.results.length : Int) + 1)))) := by
  unfold save
  split_ifs
  · exact Or.inl rfl
  · exact Or.inr rfl

theorem engFields2_of_engFields {s t : CrawlerState} (h : engFields s = engFields t) :
    engFields2 s = engFields2 t := by
  obtain ⟨-, h2, h3, h4, h5, h6, h7, h8, h9⟩ := engFields_iff h
  unfold engFields2
  rw [h2, h3, h4, h5, h6, h7, h8, h9]

theorem engFields2_iff {s t : CrawlerState} (h : engFields2 s = engFields2 t) :
    s.max_results = t.max_results ∧ s._started = t._started ∧
    s.get_robots = t.get_robots ∧ s.home_page = t.home_page ∧ s.max_depth = t.max_depth ∧
    s.add_unpublished = t.add_unpublished ∧ s.pages_visited = t.pages_visited ∧
    s.robots_urls = t.robots_urls := by
  unfold engFields2 at h
  simpa using h

theorem visit_fetched_engFields2 (C : CrawlerClass) (n : String → String)
    (st : CrawlerState) (page : PageTuple) (f : FetchRes) :
    engFields2 (visit_fetched C n st page f).1 = engFields2 st := by
  cases f with
  | exc => rfl
  | ret sm =>
      cases sm with
      | none => rfl
      | some s =>
          cases s with
          | index subs =>
              simp only [visit_fetched]
              split_ifs
              · refine engFields2_of_engFields ?_
                exact foldl_preserves _ (fun s => engFields s = engFields st)
                  (fun s a hs => (add_url_engFields C n s _ _ _ none).trans hs) subs st rfl
              · rfl
          | urlset us =>
              simp only [visit_fetched]
              rcases save_spec C st us page.pref with h | h <;> rw [h] <;> try rfl
          | other t => rfl

theorem visit_fetched_results (C : CrawlerClass) (n : String → String)
    (st : CrawlerState) (page : PageTuple) (f : FetchRes) :
    ((visit_fetched C n st page f).1.results = st.results ∧
      (visit_fetched C n st page f).2 = false) ∨
    (∃ us, (visit_fetched C n st page f).1.results = st.results ++ [us] ∧
      (visit_fetched C n st page f).2 =
        decide (st.max_results ≤ ((st.results.length : Int) + 1))) := by
  cases f with
  | exc => exact Or.inl ⟨rfl, rfl⟩
  | ret sm =>
      cases sm with
      | none => exact Or.inl ⟨rfl, rfl⟩
      | some s =>
          cases s with
          | index subs =>
              simp only [visit_fetched]
              split_ifs
              · refine Or.inl ⟨?_, trivial⟩
                exact (engFields_iff (foldl_preserves _ (fun s => engFields s = engFields st)
                  (fun s a hs => (add_url_engFields C n s _ _ _ none).trans hs) subs st rfl)).1
              · exact Or.inl ⟨rfl, trivial⟩
          | urlset us =>
              simp only [visit_fetched]
              rcases save_spec C st us page.pref with h | h <;> rw [h]
              · exact Or.inl ⟨rfl, rfl⟩
              · exact Or.inr ⟨us, by simp, rfl⟩
          | other t => exact Or.inl ⟨rfl, rfl⟩

theorem bootstrap_eng (C : CrawlerClass) (n : String → String) (st : CrawlerState)
    (r : Option (List String)) :
    (bootstrap C n st r).results = st.results ∧
    (bootstrap C n st r).max_results = st.max_results ∧
    (bootstrap C n st r)._started = st._started ∧
    (bootstrap C n st r).home_page = st.home_page ∧
    (bootstrap C n st r).max_depth = st.max_depth ∧
    (bootstrap C n st r).add_unpublished = st.add_unpublished ∧
    (bootstrap C n st r).pages_visited = st.pages_visited ∧
    (bootstrap C n st r).get_robots = false := by
  unfold bootstrap
  cases r with
  | none =>
      dsimp only
      split_ifs with h
      · obtain ⟨e1, e2, e3, -, e5, e6, e7, e8, -⟩ := engFields_iff (add_unpub_engFields C n st)
        exact ⟨e1, e2, e3, e5, e6, e7, e8, rfl⟩
      · exact ⟨rfl, rfl, rfl, rfl, rfl, rfl, rfl, rfl⟩
  | some urls =>
      dsimp only
      split_ifs with h
      · obtain ⟨e1, e2, e3, -, e5, e6, e7, e8, -⟩ := engFields_iff
          ((add_unpub_engFields C n _).trans
            (add_list_engFields C n { st with robots_urls := urls } 0 urls false "robots.txt" none))
        exact ⟨e1, e2, e3, e5, e6, e7, e8, rfl⟩
      · obtain ⟨e1, e2, e3, -, e5, e6, e7, e8, -⟩ := engFields_iff
          (add_list_engFields C n { st with robots_urls := urls } 0 urls false "robots.txt" none)
        exact ⟨e1, e2, e3, e5, e6, e7, e8, rfl⟩

theorem visit_finish_spec (st : CrawlerState) :
    (visit_finish st = (st, VisitResult.MORE) ∧ st.to_visit ≠ []) ∨
    (visit_finish st = ({ st with _started := false }, VisitResult.FIN) ∧
      st.to_visit = []) := by
  unfold visit_finish
  split_ifs with h
  · exact Or.inl ⟨rfl, by simpa [List.length_pos_iff_ne_nil] using h⟩
  · exact Or.inr ⟨rfl, by simpa [List.length_pos_iff_ne_nil] using h⟩

theorem save_toVisit_seen (C : CrawlerClass) (st : CrawlerState) (us : Urlset) (p : Rat) :
    (save C st us p).1.to_visit = st.to_visit ∧ (save C st us p).1.seen = st.seen := by
  unfold save
  split_ifs <;> exact ⟨rfl, rfl⟩

theorem add_url_seen_sub (C : CrawlerClass) (n : String → String) (st : CrawlerState)
    (d : Int) (u o : String) (p : Option Rat) :
    ∀ x ∈ st.seen, x ∈ (_add_url C n st d u o p).seen :=
  add_url_seen_mono C n st d u o p

theorem add_list_pres (C : CrawlerClass) (n : String → String) (st : CrawlerState)
    (d : Int) (l : List String) (ahp : Bool) (o : String) (p : Option Rat) :
    (FrontierInv n st → FrontierInv n (_add_list C n st d l ahp o p)) ∧
    (List.Sorted PageTuple.le st.to_visit →
      List.Sorted PageTuple.le (_add_list C n st d l ahp o p).to_visit) ∧
    (∀ x ∈ st.seen, x ∈ (_add_list C n st d l ahp o p).seen) := by
  unfold _add_list
  have h := foldl_preserves
    (fun s url => _add_url C n s d (if ahp then s.home_page.getD "" ++ url else url) o p)
    (fun s => (FrontierInv n st → FrontierInv n s) ∧
      (List.Sorted PageTuple.le st.to_visit → List.Sorted PageTuple.le s.to_visit) ∧
      (∀ x ∈ st.seen, x ∈ s.seen))
    (fun s a hs =>
      ⟨fun hi => add_url_inv (hs.1 hi),
       fun hsrt => add_url_sorted (hs.2.1 hsrt),
       fun x hx => add_url_seen_mono C n s d _ o p x (hs.2.2 x hx)⟩)
    l st ⟨fun hi => hi, fun hs => hs, fun x hx => hx⟩
  exact h

theorem add_unpub_pres (C : CrawlerClass) (n : String → String) (st : CrawlerState) :
    (FrontierInv n st → FrontierInv n (add_unpublished_paths C n st)) ∧
    (List.Sorted PageTuple.le st.to_visit →
      List.Sorted PageTuple.le (add_unpublished_paths C n st).to_visit) ∧
    (∀ x ∈ st.seen, x ∈ (add_unpublished_paths C n st).seen) := by
  unfold add_unpublished_paths
  cases hg : C.gnews_unpub_pref with
  | none =>
      dsimp only
      split_ifs with h
      · exact add_list_pres C n st _ _ _ _ _
      · exact ⟨fun hi => hi, fun hs => hs, fun x hx => hx⟩
  | some gp =>
      dsimp only
      split_ifs with h
      · obtain ⟨i1, s1, m1⟩ := add_list_pres C n st C.UNPUB_DEPTH
          _UNPUBLISHED_GNEWS_SITEMAP_PATHS true "unpub-gnews-paths" (some (gp + FLOAT_0_1))
        obtain ⟨i2, s2, m2⟩ := add_list_pres C n _ C.UNPUB_DEPTH
          _UNPUBLISHED_SITEMAP_INDEX_PATHS true "unpub-index-paths"
          (some (C.UNPUBLISHED_INDEX_PREF + FLOAT_0_1))
        exact ⟨fun hi => i2 (i1 hi), fun hs => s2 (s1 hs), fun x hx => m2 x (m1 x hx)⟩
      · exact add_list_pres C n st _ _ _ _ _

theorem bootstrap_pres (C : CrawlerClass) (n : String → String) (st : CrawlerState)
    (r : Option (List String)) :
    (FrontierInv n st → FrontierInv n (bootstrap C n st r)) ∧
    (List.Sorted PageTuple.le st.to_visit →
      List.Sorted PageTuple.le (bootstrap C n st r).to_visit) ∧
    (∀ x ∈ st.seen, x ∈ (bootstrap C n st r).seen) := by
  unfold bootstrap
  cases r with
  | none =>
      dsimp only
      split_ifs with h
      · obtain ⟨i1, s1, m1⟩ := add_unpub_pres C n st
        exact ⟨fun hi => ⟨(i1 hi).1, (i1 hi).2⟩, s1, m1⟩
      · exact ⟨fun hi => hi, fun hs => hs, fun x hx => hx⟩
  | some urls =>
      dsimp only
      split_ifs with h
      · obtain ⟨i1, s1, m1⟩ := add_list_pres C n { st with robots_urls := urls }
          0 urls false "robots.txt" none
        obtain ⟨i2, s2, m2⟩ := add_unpub_pres C n
          (_add_list C n { st with robots_urls := urls } 0 urls false "robots.txt" none)
        exact ⟨fun hi => i2 (i1 hi), fun hs => s2 (s1 hs), fun x hx => m2 x (m1 x hx)⟩
      · obtain ⟨i1, s1, m1⟩ := add_list_pres C n { st with robots_urls := urls }
          0 urls false "robots.txt" none
        exact ⟨fun hi => i1 hi, s1, m1⟩

theorem visit_fetched_pres (C : CrawlerClass) (n : String → String) (st : CrawlerState)
    (page : PageTuple) (f : FetchRes) :
    (FrontierInv n st → FrontierInv n (visit_fetched C n st page f).1) ∧
    (List.Sorted PageTuple.le st.to_visit →
      List.Sorted PageTuple.le (visit_fetched C n st page f).1.to_visit) ∧
    (∀ x ∈ st.seen, x ∈ (visit_fetched C n st page f).1.seen) := by
  cases f with
  | exc => exact ⟨fun hi => hi, fun hs => hs, fun x hx => hx⟩
  | ret sm =>
      cases sm with
      | none => exact ⟨fun hi => hi, fun hs => hs, fun x hx => hx⟩
      | some s =>
          cases s with
          | index subs =>
              simp only [visit_fetched]
              split_ifs with h
              · exact foldl_preserves _
                  (fun s => (FrontierInv n st → FrontierInv n s) ∧
                    (List.Sorted PageTuple.le st.to_visit →
                      List.Sorted PageTuple.le s.to_visit) ∧
                    (∀ x ∈ st.seen, x ∈ s.seen))
                  (fun s a hs =>
                    ⟨fun hi => add_url_inv (hs.1 hi),
                     fun hsrt => add_url_sorted (hs.2.1 hsrt),
                     fun x hx => add_url_seen_mono C n s _ _ _ none x (hs.2.2 x hx)⟩)
                  subs st ⟨fun hi => hi, fun hs => hs, fun x hx => hx⟩
              · exact ⟨fun hi => hi, fun hs => hs, fun x hx => hx⟩
          | urlset us =>
              obtain ⟨h1, h2⟩ := save_toVisit_seen C st us page.pref
              simp only [visit_fetched]
              refine ⟨fun hi => ?_, fun hs => ?_, fun x hx => ?_⟩
              · exact ⟨h1 ▸ hi.1, fun p hp => h2 ▸ hi.2 p (h1 ▸ hp)⟩
              · exact h1 ▸ hs
              · exact h2 ▸ hx
          | other t => exact ⟨fun hi => hi, fun hs => hs, fun x hx => hx⟩

theorem pop_inv {n : String → String} {st : CrawlerState} {page : PageTuple}
    {rest : List PageTuple} (htv : st.to_visit = page :: rest)
    (hi : FrontierInv n st) :
    FrontierInv n { st with to_visit := rest, pages_visited := st.pages_visited + 1 } := by
  constructor
  · have := hi.1
    rw [htv] at this
    exact (List.nodup_cons.1 this).2
  · intro p hp
    exact hi.2 p (by rw [htv]; exact List.mem_cons_of_mem _ hp)

theorem visit_one_pres {C : CrawlerClass} {n : String → String} {st : CrawlerState}
    {inp : VisitInput} {st' : CrawlerState} {r : VisitResult}
    (h : visit_one C n st inp = Except.ok (st', r)) :
    (FrontierInv n st → FrontierInv n st') ∧
    (List.Sorted PageTuple.le st.to_visit → List.Sorted PageTuple.le st'.to_visit) ∧
    (∀ x ∈ st.seen, x ∈ st'.seen) := by
  obtain ⟨hs, hcase | hcase⟩ := visit_one_cases h
  · obtain ⟨hgr, heq⟩ := hcase
    obtain ⟨i1, s1, m1⟩ := bootstrap_pres C n
      { st with pages_visited := st.pages_visited + 1 } inp.robots
    rcases visit_finish_spec (bootstrap C n
        { st with pages_visited := st.pages_visited + 1 } inp.robots) with ⟨hf, -⟩ | ⟨hf, -⟩
    · rw [hf] at heq
      obtain ⟨rfl, rfl⟩ := Prod.mk.injEq .. ▸ heq
      exact ⟨fun hi => i1 hi, fun hsrt => s1 hsrt, m1⟩
    · rw [hf] at heq
      obtain ⟨rfl, rfl⟩ := Prod.mk.injEq .. ▸ heq
      exact ⟨fun hi => ⟨(i1 hi).1, (i1 hi).2⟩, fun hsrt => s1 hsrt, m1⟩
  · obtain ⟨hgr, page, rest, htv, hsub⟩ := hcase
    obtain ⟨i1, s1, m1⟩ := visit_fetched_pres C n
      { st with pages_visited := st.pages_visited + 1, to_visit := rest } page inp.fetch
    have hinv0 : FrontierInv n st →
        FrontierInv n { st with pages_visited := st.pages_visited + 1, to_visit := rest } :=
      fun hi => pop_inv htv hi
    have hsrt0 : List.Sorted PageTuple.le st.to_visit →
        List.Sorted PageTuple.le rest := by
      intro hsrt
      rw [htv] at hsrt
      exact (List.sorted_cons.1 hsrt).2
    rcases hsub with ⟨hdone, heq⟩ | ⟨hdone, heq⟩
    · obtain ⟨rfl, rfl⟩ := Prod.mk.injEq .. ▸ heq
      exact ⟨fun hi => i1 (hinv0 hi), fun hsrt => s1 (hsrt0 hsrt), m1⟩
    · rcases visit_finish_spec (visit_fetched C n
          { st with pages_visited := st.pages_visited + 1, to_visit := rest } page inp.fetch).1 with
          ⟨hf, -⟩ | ⟨hf, -⟩
      · rw [hf] at heq
        obtain ⟨rfl, rfl⟩ := Prod.mk.injEq .. ▸ heq
        exact ⟨fun hi => i1 (hinv0 hi), fun hsrt => s1 (hsrt0 hsrt), m1⟩
      · rw [hf] at heq
        obtain ⟨rfl, rfl⟩ := Prod.mk.injEq .. ▸ heq
        exact ⟨fun hi => ⟨(i1 (hinv0 hi)).1, (i1 (hinv0 hi)).2⟩,
          fun hsrt => s1 (hsrt0 hsrt), m1⟩

theorem visit_finish_fields (st : CrawlerState) :
    (visit_finish st).1.results = st.results ∧
    (visit_finish st).1.to_visit = st.to_visit ∧
    (visit_finish st).1.seen = st.seen ∧
    (visit_finish st).1.max_results = st.max_results ∧
    (visit_finish st).1.get_robots = st.get_robots ∧
    (visit_finish st).1.pages_visited = st.pages_visited := by
  unfold visit_finish
  split_ifs <;> exact ⟨rfl, rfl, rfl, rfl, rfl, rfl⟩

theorem visit_one_not_started {C : CrawlerClass} {n : String → String}
    {st : CrawlerState} (inp : VisitInput) (h : st._started = false) :
    visit_one C n st inp =
      Except.error (CrawlError.crawlerException "need to call start") := by
  unfold visit_one
  rw [h]
  rfl

theorem step_master {C : CrawlerClass} {n : String → String} {st : CrawlerState}
    {inp : VisitInput} {st' : CrawlerState} {r : VisitResult}
    (h : visit_one C n st inp = Except.ok (st', r)) :
    st'.max_results = st.max_results ∧
    ((st'.results = st.results ∧ r ≠ VisitResult.DONE) ∨
     (st'.results.length = st.results.length + 1 ∧
       (r = VisitResult.DONE ↔ st'.max_results ≤ (st'.results.length : Int)))) ∧
    (r = VisitResult.MORE → st'.to_visit ≠ []) ∧
    (r = VisitResult.FIN → st'.to_visit = [] ∧ st'._started = false) ∧
    (r = VisitResult.DONE → st'._started = true ∧ st'.get_robots = false) := by
  obtain ⟨hs, hcase | hcase⟩ := visit_one_cases h
  · obtain ⟨hgr, heq⟩ := hcase
    obtain ⟨b1, b2, b3, -, -, -, -, -⟩ := bootstrap_eng C n
      { st with pages_visited := st.pages_visited + 1 } inp.robots
    rcases visit_finish_spec (bootstrap C n
        { st with pages_visited := st.pages_visited + 1 } inp.robots) with ⟨hf, hne⟩ | ⟨hf, hnil⟩
    · rw [hf] at heq
      obtain ⟨rfl, rfl⟩ := Prod.mk.injEq .. ▸ heq
      refine ⟨b2, Or.inl ⟨b1, by simp⟩, fun _ => hne, by simp, by simp⟩
    · rw [hf] at heq
      obtain ⟨rfl, rfl⟩ := Prod.mk.injEq .. ▸ heq
      exact ⟨b2, Or.inl ⟨b1, by simp⟩, by simp, fun _ => ⟨hnil, rfl⟩, by simp⟩
  · obtain ⟨hgr, page, rest, htv, hsub⟩ := hcase
    obtain ⟨e1, e2, e3, -, -, -, -, -⟩ := engFields2_iff (visit_fetched_engFields2 C n
      { st with pages_visited := st.pages_visited + 1, to_visit := rest } page inp.fetch)
    rcases hsub with ⟨hdone, heq⟩ | ⟨hdone, heq⟩
    · obtain ⟨rfl, rfl⟩ := Prod.mk.injEq .. ▸ heq
      rcases visit_fetched_results C n
          { st with pages_visited := st.pages_visited + 1, to_visit := rest } page inp.fetch with
        ⟨-, hb⟩ | ⟨us, hr, hb⟩
      · rw [hdone] at hb
        exact absurd hb (by simp)
      · rw [hdone] at hb
        refine ⟨e1, Or.inr ⟨by rw [hr]; simp, ?_⟩, by simp, by simp, fun _ => ⟨e2.trans hs, e3.trans hgr⟩⟩
        have hq : st.max_results ≤ ((st.results.length : Int) + 1) := of_decide_eq_true hb.symm
        constructor
        · intro _
          rw [e1, hr]
          simpa using hq
        · intro _
          rfl
    · rcases visit_finish_spec (visit_fetched C n
          { st with pages_visited := st.pages_visited + 1, to_visit := rest } page inp.fetch).1 with
          ⟨hf, hne⟩ | ⟨hf, hnil⟩
      · rw [hf] at heq
        obtain ⟨rfl, rfl⟩ := Prod.mk.injEq .. ▸ heq
        refine ⟨e1, ?_, fun _ => hne, by simp, by simp⟩
        rcases visit_fetched_results C n
            { st with pages_visited := st.pages_visited + 1, to_visit := rest } page inp.fetch with
          ⟨hr, -⟩ | ⟨us, hr, hb⟩
        · exact Or.inl ⟨hr, by simp⟩
        · rw [hdone] at hb
          refine Or.inr ⟨by rw [hr]; simp, ?_⟩
          have hq : ¬ (st.max_results ≤ ((st.results.length : Int) + 1)) :=
            of_decide_eq_false hb.symm
          constructor
          · intro hcon
            exact absurd hcon (by simp)
          · intro hle
            rw [e1, hr] at hle
            exact absurd (by simpa using hle) hq
      · rw [hf] at heq
        obtain ⟨rfl, rfl⟩ := Prod.mk.injEq .. ▸ heq
        refine ⟨e1, ?_, by simp, fun _ => ⟨hnil, rfl⟩, by simp⟩
        rcases visit_fetched_results C n
            { st with pages_visited := st.pages_visited + 1, to_visit := rest } page inp.fetch with
          ⟨hr, -⟩ | ⟨us, hr, hb⟩
        · exact Or.inl ⟨hr, by simp⟩
        · rw [hdone] at hb
          refine Or.inr ⟨by rw [hr]; simp, ?_⟩
          have hq : ¬ (st.max_results ≤ ((st.results.length : Int) + 1)) :=
            of_decide_eq_false hb.symm
          constructor
          · intro hcon
            exact absurd hcon (by simp)
          · intro hle
            rw [e1, hr] at hle
            exact absurd (by simpa using hle) hq

theorem visit_one_fetchfail {C : CrawlerClass} {n : String → String} {st : CrawlerState}
    {inp : VisitInput} {hp : String} {page : PageTuple} {rest : List PageTuple}
    (hs : st._started = true) (hhp : st.home_page = some hp) (hne : ¬ (hp = ""))
    (hgr : st.get_robots = false) (htv : st.to_visit = page :: rest)
    (hf : inp.fetch = FetchRes.exc ∨ inp.fetch = FetchRes.ret none) :
    visit_one C n st inp =
      Except.ok (visit_finish
        { st with pages_visited := st.pages_visited + 1, to_visit := rest }) := by
  rcases hf with hf | hf <;>
    simp [visit_one, visit_started, visit_popped, visit_fetched, heappop,
      hs, hhp, hne, hgr, htv, hf]

/-- C4: a step returns DONE exactly when the Collector signaled
quota-reached on that step, FIN exactly when the frontier is empty after
processing and no quota was signaled, and MORE otherwise. -/
theorem claim_C4 (C : CrawlerClass) (n : String → String) (st : CrawlerState)
    (inp : VisitInput) (st' : CrawlerState) (r : VisitResult)
    (h : visit_one C n st inp = Except.ok (st', r)) :
    (r = VisitResult.DONE ↔ quotaSignaled st st') ∧
    (r = VisitResult.FIN ↔ (st'.to_visit = [] ∧ ¬ quotaSignaled st st')) ∧
    (r = VisitResult.MORE ↔ (st'.to_visit ≠ [] ∧ ¬ quotaSignaled st st')) := by
  obtain ⟨hmr, hres, hmore, hfin, hdone⟩ := step_master h
  have hDq : r = VisitResult.DONE ↔ quotaSignaled st st' := by
    constructor
    · intro hr
      rcases hres with ⟨-, hne⟩ | ⟨hlen, hiff⟩
      · exact absurd hr hne
      · exact ⟨hlen, hiff.1 hr⟩
    · rintro ⟨hlen, hle⟩
      rcases hres with ⟨hsame, -⟩ | ⟨-, hiff⟩
      · rw [hsame] at hlen
        omega
      · exact hiff.2 hle
  refine ⟨hDq, ?_, ?_⟩
  · constructor
    · intro hr
      refine ⟨(hfin hr).1, fun hq => ?_⟩
      have hd := hDq.2 hq
      rw [hr] at hd
      exact absurd hd (by simp)
    · rintro ⟨hnil, hq⟩
      cases r with
      | DONE => exact absurd (hDq.1 rfl) hq
      | MORE => exact absurd hnil (hmore rfl)
      | FIN => rfl
  · constructor
    · intro hr
      refine ⟨hmore hr, fun hq => ?_⟩
      have hd := hDq.2 hq
      rw [hr] at hd
      exact absurd hd (by simp)
    · rintro ⟨hnil, hq⟩
      cases r with
      | DONE => exact absurd (hDq.1 rfl) hq
      | MORE => rfl
      | FIN => exact absurd (hfin rfl).1 hnil

/-- C10: a FIN return clears the started flag, so every further step
raises `CrawlerException` until `start` is called again; a DONE return
leaves the session started and out of the robots phase, so a further step
proceeds to pop the Frontier. -/
theorem claim_C10 (C : CrawlerClass) (n : String → String) (st : CrawlerState)
    (inp : VisitInput) (st' : CrawlerState) (r : VisitResult)
    (h : visit_one C n st inp = Except.ok (st', r)) :
    (r = VisitResult.FIN → st'._started = false ∧
      ∀ inp', visit_one C n st' inp' =
        Except.error (CrawlError.crawlerException "need to call start")) ∧
    (r = VisitResult.DONE → st'._started = true ∧ st'.get_robots = false) := by
  obtain ⟨-, -, -, hfin, hdone⟩ := step_master h
  exact ⟨fun hr => ⟨(hfin hr).2, fun inp' => visit_one_not_started inp' (hfin hr).2⟩,
    hdone⟩

/-- C9: a step on a never-started session raises `CrawlerException`
(distinct from the swallowed transport/parse failures); a failed fetch on a
started session is swallowed — the step succeeds and the popped candidate
is neither expanded (no new seen entry) nor collected (results
unchanged). -/
theorem claim_C9 (C : CrawlerClass) (n : String → String) :
    (∀ st inp, st._started = false →
      visit_one C n st inp =
        Except.error (CrawlError.crawlerException "need to call start")) ∧
    (∀ st inp hp page rest, st._started = true → st.home_page = some hp →
      ¬ (hp = "") → st.get_robots = false → st.to_visit = page :: rest →
      (inp.fetch = FetchRes.exc ∨ inp.fetch = FetchRes.ret none) →
      visit_one C n st inp = Except.ok (visit_finish
        { st with pages_visited := st.pages_visited + 1, to_visit := rest }) ∧
      (visit_finish
        { st with pages_visited := st.pages_visited + 1, to_visit := rest }).1.results
          = st.results ∧
      (visit_finish
        { st with pages_visited := st.pages_visited + 1, to_visit := rest }).1.seen
          = st.seen ∧
      (visit_finish
        { st with pages_visited := st.pages_visited + 1, to_visit := rest }).1.to_visit
          = rest) := by
  constructor
  · intro st inp h
    exact visit_one_not_started inp h
  · intro st inp hp page rest hs hhp hne hgr htv hf
    have heq := visit_one_fetchfail (C := C) (n := n) hs hhp hne hgr htv hf
    obtain ⟨f1, f2, f3, -, -, -⟩ := visit_finish_fields
      { st with pages_visited := st.pages_visited + 1, to_visit := rest }
    exact ⟨heq, f1, f3, f2⟩

/-- C7: an Index document popped from the Frontier is expanded with every
child considered at depth parent.depth + 1 under the origin breadcrumb
extended by " -> " and the parent URL, and is silently not expanded at all
(frontier and seen set untouched) when parent.depth + 1 exceeds
max_depth. -/
theorem claim_C7 (C : CrawlerClass) (n : String → String) (st : CrawlerState)
    (inp : VisitInput) (st' : CrawlerState) (r : VisitResult)
    (page : PageTuple) (rest : List PageTuple) (subs : List String)
    (hgr : st.get_robots = false) (htv : st.to_visit = page :: rest)
    (hf : inp.fetch = FetchRes.ret (some (Sitemap.index subs)))
    (h : visit_one C n st inp = Except.ok (st', r)) :
    (st.max_depth < page.depth + 1 → st'.to_visit = rest ∧ st'.seen = st.seen) ∧
    (∀ q ∈ st'.to_visit, q ∉ rest →
      q.depth = page.depth + 1 ∧ q.origin = page.origin ++ " -> " ++ page.url) := by
  obtain ⟨-, hcase | hcase⟩ := visit_one_cases h
  · rw [hgr] at hcase
    exact absurd hcase.1 (by simp)
  · obtain ⟨-, page', rest', htv', hsub⟩ := hcase
    have hcons : page :: rest = page' :: rest' := htv ▸ htv'
    obtain ⟨rfl, rfl⟩ : page = page' ∧ rest = rest' := by
      have := List.cons.injEq page rest page' rest' ▸ hcons
      exact this
    rw [hf] at hsub
    rcases hsub with ⟨hdone, -⟩ | ⟨-, heq⟩
    · rw [show (visit_fetched C n
          { st with pages_visited := st.pages_visited + 1, to_visit := rest }
          page (FetchRes.ret (some (Sitemap.index subs)))).2 = false from by
            simp [visit_fetched]] at hdone
      exact absurd hdone (by simp)
    · by_cases hd : page.depth + 1 ≤ st.max_depth
      · have hvf : (visit_fetched C n
            { st with pages_visited := st.pages_visited + 1, to_visit := rest }
            page (FetchRes.ret (some (Sitemap.index subs)))).1 =
            subs.foldl (fun s suburl => _add_url C n s (page.depth + 1) suburl
              (page.origin ++ " -> " ++ page.url) none)
              { st with pages_visited := st.pages_visited + 1, to_visit := rest } := by
          simp [visit_fetched, hd]
        rw [hvf] at heq
        constructor
        · intro htoo
          omega
        · intro q hq hnr
          have hst' : st' = (visit_finish
            (subs.foldl (fun s suburl => _add_url C n s (page.depth + 1) suburl
              (page.origin ++ " -> " ++ page.url) none)
              { st with pages_visited := st.pages_visited + 1, to_visit := rest })).1 :=
            congrArg Prod.fst heq
          subst hst' 
          obtain ⟨-, f2, -, -, -, -⟩ := visit_finish_fields
            (subs.foldl (fun s suburl => _add_url C n s (page.depth + 1) suburl
              (page.origin ++ " -> " ++ page.url) none)
              { st with pages_visited := st.pages_visited + 1, to_visit := rest })
          rw [f2] at hq
          have hmem := foldl_preserves _
            (fun s => ∀ q ∈ s.to_visit, q ∈ rest ∨
              (q.depth = page.depth + 1 ∧
                q.origin = page.origin ++ " -> " ++ page.url))
            (fun s a hs q hq => by
              rcases add_url_to_visit_mem hq with hin | ⟨h1, h2, -⟩
              · exact hs q hin
              · exact Or.inr ⟨h1, h2⟩)
            subs { st with pages_visited := st.pages_visited + 1, to_visit := rest }
            (fun q hq => Or.inl hq) q hq
          rcases hmem with hin | hgood
          · exact absurd hin hnr
          · exact hgood
      · have hvf : (visit_fetched C n
            { st with pages_visited := st.pages_visited + 1, to_visit := rest }
            page (FetchRes.ret (some (Sitemap.index subs)))).1 =
            { st with pages_visited := st.pages_visited + 1, to_visit := rest } := by
          simp [visit_fetched, hd]
        rw [hvf] at heq
        have hst' : st' = (visit_finish
            { st with pages_visited := st.pages_visited + 1, to_visit := rest }).1 :=
          congrArg Prod.fst heq
        subst hst'
        obtain ⟨-, f2, f3, -, -, -⟩ := visit_finish_fields
          { st with pages_visited := st.pages_visited + 1, to_visit := rest }
        refine ⟨fun _ => ⟨f2, f3⟩, fun q hq hnr => ?_⟩
        rw [f2] at hq
        exact absurd hq hnr

/-- C5: within a session no normalized URL is pushed twice (the frontier
entries have pairwise distinct normalized URLs and each is in `seen`, an
invariant established at construction and preserved by `start` and every
step, with `seen` itself only growing); a candidate at or above the
discard threshold is recorded in `seen` but leaves the frontier untouched,
and a URL whose normalized form is already in `seen` leaves the whole
state untouched (it is neither rescored nor reconsidered). -/
theorem claim_C5 (C : CrawlerClass) (n : String → String) :
    (∀ st d u o p0,
      (n u ∈ st.seen → _add_url C n st d u o p0 = st) ∧
      (n u ∉ st.seen → n u ∈ (_add_url C n st d u o p0).seen) ∧
      (n u ∉ st.seen → C.DISCARD_PREF ≤ effPref C p0 u →
        (_add_url C n st d u o p0).to_visit = st.to_visit)) ∧
    (∀ ua md mr mn, FrontierInv n (init_crawler ua md mr mn)) ∧
    (∀ st hp au, FrontierInv n st → FrontierInv n (start st hp au)) ∧
    (∀ st inp st' r, visit_one C n st inp = Except.ok (st', r) →
      (FrontierInv n st → FrontierInv n st') ∧ ∀ x ∈ st.seen, x ∈ st'.seen) := by
  refine ⟨?_, ?_, ?_, ?_⟩
  · intro st d u o p0
    refine ⟨fun hmem => ?_, fun hmem => ?_, fun hmem hpref => ?_⟩
    · unfold _add_url
      rw [if_pos hmem]
    · unfold _add_url
      rw [if_neg hmem]
      split_ifs <;> exact List.mem_cons_self _ _
    · unfold _add_url
      rw [if_neg hmem, if_pos hpref]
  · intro ua md mr mn
    exact ⟨List.nodup_nil, by intro p hp; cases hp⟩
  · intro st hp au hi
    exact ⟨hi.1, hi.2⟩
  · intro st inp st' r h
    obtain ⟨i1, -, m1⟩ := visit_one_pres h
    exact ⟨i1, m1⟩

/-- C6: the frontier entries are totally ordered by the lexicographic
tuple (pref ascending, depth ascending, url ascending, origin ascending) —
the order is total, antisymmetric and transitive, and coincides with that
lexicographic comparison — pushes preserve the heap order, every step
preserves it, and popMin returns an entry that is least under the order
(in particular, of two entries with equal score and depths 1 and 2, the
depth-1 entry is popped first). -/
theorem claim_C6 :
    (∀ a b : PageTuple, PageTuple.le a b ∨ PageTuple.le b a) ∧
    (∀ a b : PageTuple, PageTuple.le a b → PageTuple.le b a → a = b) ∧
    (∀ a b c : PageTuple, PageTuple.le a b → PageTuple.le b c → PageTuple.le a c) ∧
    (∀ a b : PageTuple, PageTuple.le a b ↔ (ptLtP a b ∨ a = b)) ∧
    (∀ (heap : List PageTuple) (pt : PageTuple), List.Sorted PageTuple.le heap →
      List.Sorted PageTuple.le (heappush heap pt)) ∧
    (∀ (C : CrawlerClass) (n : String → String) (st : CrawlerState) (inp : VisitInput)
      (st' : CrawlerState) (r : VisitResult),
      visit_one C n st inp = Except.ok (st', r) →
      List.Sorted PageTuple.le st.to_visit → List.Sorted PageTuple.le st'.to_visit) ∧
    (∀ (heap : List PageTuple) (p : PageTuple) (rest : List PageTuple),
      List.Sorted PageTuple.le heap → heappop heap = some (p, rest) →
      ∀ q ∈ heap, PageTuple.le p q) := by
  refine ⟨ptLe_total, fun a b => ptLe_antisymm, fun a b c => ptLe_trans, ptLeb_iff,
    fun heap pt => sorted_heappush pt, ?_, fun heap p rest => heappop_least⟩
  intro C n st inp st' r h hs
  exact (visit_one_pres h).2.1 hs

/-- C1 amended: start normalizes the home page to a trailing slash, records
the add_unpublished flag, re-enters the bootstrapping (robots) phase and
marks the session started — but leaves seen set, Frontier, results and the
pages_visited counter untouched (those are initialized only by the
constructor). -/
theorem claim_C1_amended (st : CrawlerState) (hp : String) (au : Bool) :
    (start st hp au).home_page =
      some (if str_endswith hp "/" then hp else hp ++ "/") ∧
    (start st hp au).get_robots = true ∧
    (start st hp au)._started = true ∧
    (start st hp au).add_unpublished = au ∧
    (start st hp au).seen = st.seen ∧
    (start st hp au).to_visit = st.to_visit ∧
    (start st hp au).results = st.results ∧
    (start st hp au).pages_visited = st.pages_visited :=
  ⟨rfl, rfl, rfl, rfl, rfl, rfl, rfl, rfl⟩

/-- C1 is refuted on the code: after one bootstrapped step and a second
start, the seen set, the Frontier and the pages_visited counter all
survive from the previous session (and so does a collected result). -/
theorem claim_C1_counterexample :
    c1_st3.seen = ["http://example.com/s.xml"] ∧
    c1_st3.to_visit ≠ [] ∧
    c1_st3.pages_visited = 1 ∧
    c1_st3.get_robots = true ∧
    c1_st3._started = true ∧
    c1_st5.results.length = 1 := by
  decide

/-- C2: a URL whose urlsplit path is an entry of the unpublished gnews
path table scores the fixed UNPUBLISHED_GNEWS_SITEMAP_PREF (-0.25) before
any other rule; a path in the unpublished index table scores the fixed
UNPUBLISHED_INDEX_PREF (1). -/
theorem claim_C2 (url : String) :
    ((urlsplit url).path ∈ _UNPUBLISHED_GNEWS_SITEMAP_PATHS →
      GNewsCrawler.page_pref url = GNewsCrawler.UNPUBLISHED_GNEWS_SITEMAP_PREF) ∧
    ((urlsplit url).path ∈ _UNPUBLISHED_SITEMAP_INDEX_PATHS →
      GNewsCrawler.page_pref url = BaseCrawler.UNPUBLISHED_INDEX_PREF) := by
  have hdis : ∀ p ∈ _UNPUBLISHED_SITEMAP_INDEX_PATHS,
      p ∉ _UNPUBLISHED_GNEWS_SITEMAP_PATHS := by decide
  constructor
  · intro hmem
    unfold GNewsCrawler.page_pref
    rw [if_pos hmem]
  · intro hmem
    unfold GNewsCrawler.page_pref
    rw [if_neg (hdis _ hmem), if_pos hmem]

theorem claim_C2_witness :
    GNewsCrawler.page_pref "news-sitemap.xml" =
      GNewsCrawler.UNPUBLISHED_GNEWS_SITEMAP_PREF ∧
    GNewsCrawler.page_pref "sitemap.xml" = BaseCrawler.UNPUBLISHED_INDEX_PREF :=
  ⟨(claim_C2 "news-sitemap.xml").1 (by decide),
   (claim_C2 "sitemap.xml").2 (by decide)⟩

/-- C8: the candidate with path-plus-query /sitemap-1999.xml?mm=12&dd=31
scores at the discard threshold (10) under the heuristic scorer, so
_add_url marks it seen without ever pushing it onto the Frontier. -/
theorem claim_C8 :
    GNewsCrawler.cls.DISCARD_PREF ≤ GNewsCrawler.page_pref c8_url ∧
    (_add_url GNewsCrawler.cls id c8_st 0 c8_url "robots.txt" none).to_visit = [] ∧
    (_add_url GNewsCrawler.cls id c8_st 0 c8_url "robots.txt" none).seen = [c8_url] := by
  decide

theorem stepsNoDone_bound {C : CrawlerClass} {n : String → String}
    {st0 st1 : CrawlerState} (h : StepsNoDone C n st0 st1) :
    st1.max_results = st0.max_results ∧
    (st1.results.length ≤ st0.results.length ∨
      (st1.results.length : Int) < st1.max_results) := by
  induction h with
  | refl => exact ⟨rfl, Or.inl le_rfl⟩
  | @step sb sc inp r hsteps hvisit hne ih =>
      obtain ⟨ihm, ihl⟩ := ih
      obtain ⟨hm, hres, -, -, -⟩ := step_master hvisit
      refine ⟨hm.trans ihm, ?_⟩
      rcases hres with ⟨hsame, -⟩ | ⟨hlen, hiff⟩
      · rw [hsame]
        rcases ihl with hl | hl
        · exact Or.inl hl
        · right
          rw [hm]
          exact hl
      · right
        have hnd : ¬ (sc.max_results ≤ (sc.results.length : Int)) :=
          fun hle => hne (hiff.2 hle)
        omega

/-- C3 amended: the default Collector's save appends unconditionally and
signals quota-reached exactly when the new length reaches max_results; the
bound len(results) ≤ max_results is NOT invariant in general, but over any
run from an empty-results state in which no earlier step returned DONE
(i.e. a caller that stops at the first DONE), the final step leaves
len(results) ≤ max(max_results, 1). -/
theorem claim_C3_amended (C : CrawlerClass) (n : String → String)
    (st0 st1 : CrawlerState) (inp : VisitInput) (st2 : CrawlerState)
    (r : VisitResult) (h0 : st0.results = [])
    (hrun : StepsNoDone C n st0 st1)
    (h : visit_one C n st1 inp = Except.ok (st2, r)) :
    ((st2.results.length : Int) ≤ max st0.max_results 1 ∧
      st2.max_results = st0.max_results) ∧
    (∀ s us p, (save BaseCrawler.cls s us p).1.results = s.results ++ [us] ∧
      ((save BaseCrawler.cls s us p).2 = true ↔
        s.max_results ≤ ((s.results.length : Int) + 1))) := by
  constructor
  · obtain ⟨bm, bl⟩ := stepsNoDone_bound hrun
    obtain ⟨hm, hres, -, -, -⟩ := step_master h
    have h0len : st0.results.length = 0 := by rw [h0]; rfl
    have hmax1 : st0.max_results ≤ max st0.max_results 1 := le_max_left _ _
    have hmax2 : (1 : Int) ≤ max st0.max_results 1 := le_max_right _ _
    refine ⟨?_, hm.trans bm⟩
    rcases hres with ⟨hsame, -⟩ | ⟨hlen, -⟩
    · rw [hsame]
      rcases bl with hl | hl
      · omega
      · rw [bm] at hl
        omega
    · rcases bl with hl | hl
      · omega
      · rw [bm] at hl
        omega
  · intro s us p
    unfold save
    simp [BaseCrawler.cls]

theorem claim_C3_witness :
    (c_st2.results.length : Int) ≤ max c_st1.max_results 1 ∧
    c_st2.max_results = c_st1.max_results :=
  (claim_C3_amended BaseCrawler.cls id c_st1 c_st1 c_i1 c_st2 VisitResult.MORE
    rfl (StepsNoDone.refl c_st1) rfl).1

/-- C3 as stated is refuted on the code: with max_results = 1 and stepping
on after the first DONE (the started flag survives DONE), a session
collects two results, exceeding max_results. -/
theorem claim_C3_counterexample :
    c_st4.results.length = 2 ∧ c_st4.max_results = 1 ∧
    ¬ ((c_st4.results.length : Int) ≤ c_st4.max_results) := by
  decide

theorem claim_C7_witness :
    c7_st2.to_visit = [] ∧ c7_st2.seen = c7_st1.seen :=
  (claim_C7 BaseCrawler.cls id c7_st1 c7_i1 c7_st2 VisitResult.FIN c7_page []
    ["http://e.com/c1.xml"] (by decide) (by decide) rfl rfl).1 (by decide)

theorem claim_C4_witness :
    VisitResult.DONE = VisitResult.DONE ↔ quotaSignaled c_st2 c_st3 :=
  (claim_C4 BaseCrawler.cls id c_st2 c_i2 c_st3 VisitResult.DONE rfl).1

theorem claim_C5_witness : FrontierInv id c_st2 :=
  ((claim_C5 BaseCrawler.cls id).2.2.2 c_st1 c_i1 c_st2 VisitResult.MORE rfl).1
    (by decide)

theorem claim_C6_witness :
    heappop [c6_p1, c6_p2] = some (c6_p1, [c6_p2]) ∧ PageTuple.le c6_p1 c6_p2 :=
  ⟨rfl, claim_C6.2.2.2.2.2.2 [c6_p1, c6_p2] c6_p1 [c6_p2] (by decide) rfl c6_p2
    (by decide)⟩

theorem claim_C9_witness :
    visit_one BaseCrawler.cls id (init_crawler "ua" 1 3 0) c_i1 =
      Except.error (CrawlError.crawlerException "need to call start") ∧
    visit_one BaseCrawler.cls id c_st2 c9_ex =
      Except.ok (visit_finish
        { c_st2 with pages_visited := c_st2.pages_visited + 1, to_visit := [c_pB] }) :=
  ⟨(claim_C9 BaseCrawler.cls id).1 (init_crawler "ua" 1 3 0) c_i1 rfl,
   ((claim_C9 BaseCrawler.cls id).2 c_st2 c9_ex "http://e.com/" c_pA [c_pB]
      rfl rfl (by decide) rfl (by decide) (Or.inl rfl)).1⟩

theorem claim_C10_witness :
    c_st3._started = true ∧ c_st3.get_robots = false ∧ c7_st2._started = false :=
  ⟨((claim_C10 BaseCrawler.cls id c_st2 c_i2 c_st3 VisitResult.DONE rfl).2 rfl).1,
   ((claim_C10 BaseCrawler.cls id c_st2 c_i2 c_st3 VisitResult.DONE rfl).2 rfl).2,
   ((claim_C10 BaseCrawler.cls id c7_st1 c7_i1 c7_st2 VisitResult.FIN rfl).1 rfl).1⟩
